import Mathlib

/-
Shallow embedding of the threads replication service (service.go) of
benjaminbollen/go-threads.

Modelling conventions:
  * Machine identifiers (peer ids, thread ids, CIDs, keys, serialized byte
    payloads, cbor nodes) are opaque to the service; they are modelled as
    naturals (byte strings as lists of naturals, multiaddresses as strings,
    since the service builds the "/p2p/<id>" string itself).
  * Every external collaborator call (log directory/store, block store,
    crypto, cbor codec, multiaddr parsing, host key material) is a field of
    an `Env` record.  A Go call `v, err := f(x)` becomes
    `env.f x : Except String v`; a nil-able result becomes an `Option`.
  * Side effects (directory writes, PutRecord, AddRecord, spawned history
    pulls and subscriptions, log output) are accumulated in an explicit
    `List Effect` that every stateful function threads through; a function
    that fails keeps the effects already performed, exactly as the Go code
    leaves earlier store writes in place when a later step errors.
  * Goroutine spawns (`go pullHistory...`, `go subscribe...`) are recorded
    as effects at the point of the spawn; their bodies are external to the
    claims under study.
-/

abbrev ThreadID := Nat
abbrev PeerID := Nat
abbrev Cid := Nat
abbrev PubKey := Nat
abbrev PrivKey := Nat
abbrev DecKey := Nat
abbrev Bytes := List Nat
abbrev Multiaddr := String
abbrev PbRecord := Nat
abbrev Node := Nat
abbrev EventData := Nat

/-- Go zero value of `peer.ID` (the `var kid peer.ID` default in PushRecord). -/
def emptyPeerID : PeerID := 0

/-- Name of the p2p multiaddr protocol, `ma.ProtocolWithCode(ma.P_P2P).Name`. -/
def p2pProtocolName : String := "p2p"

/-- Address TTL constants of the peerstore; only the permanent TTL is used. -/
inductive AddrTTL where
  | permanent
deriving DecidableEq, Repr

/-- In-memory record (`thread.Record`): `cid` is the value of `rec.Cid()`. -/
structure ThreadRecord where
  cid : Cid
  payload : Nat
deriving DecidableEq, Repr

/-- Log descriptor, `thread.LogInfo`. -/
structure LogInfo where
  ID : PeerID
  PubKey : PubKey
  FollowKey : Option DecKey
  ReadKey : Option DecKey
  Addrs : List Multiaddr
  Heads : List Cid
deriving DecidableEq, Repr

/-- Decoded `cbor.Logs` document: the list of log descriptors. -/
structure LogsDoc where
  Logs : List LogInfo
deriving DecidableEq, Repr

/-- Modelled from the spec: `cbor.Logs.Readable` is code of this repository
that is not under src (cbor package); the spec states the readable flag
indicates whether any entry of the document carries a read key. -/
def LogsDoc.Readable (l : LogsDoc) : Bool :=
  l.Logs.any fun lg => lg.ReadKey.isSome

/-- Thread metadata, `thread.Info` as used by the service (`info.Logs`). -/
structure ThreadInfo where
  Logs : List PeerID
deriving DecidableEq, Repr

/-- Header of a `pb.PushRecordRequest`.  Nil-able proto pointers are
`Option`s.  The outbound path always wraps the (possibly absent) follow key
in a `pb.ProtoKey` pointer; that wrapping is `Env.protoKeyOfOpt` below. -/
structure PushHeader where
  From : PeerID
  Signature : Bytes
  Key : Option PubKey
  FollowKey : Option DecKey
  ReadKeyLogID : Option PeerID
deriving DecidableEq, Repr

/-- Wire request `pb.PushRecordRequest`. -/
structure PushRecordRequest where
  Header : Option PushHeader
  ThreadID : ThreadID
  LogID : PeerID
  Record : PbRecord
deriving DecidableEq, Repr

/-- Wire reply `pb.PushRecordReply`. -/
structure PushRecordReply where
  NewAddr : Option Multiaddr
deriving DecidableEq, Repr

/-- Observable side effects of the service, in program order.
`dispatched` marks a pubsub message being handed to PushRecord, and
`logError` an error written to the log. -/
inductive Effect where
  | addLog (tid : ThreadID) (lg : LogInfo)
  | pullHistory (tid : ThreadID) (lid : PeerID)
  | addAddr (tid : ThreadID) (lid : PeerID) (addr : Multiaddr) (ttl : AddrTTL)
  | subscribeThread (tid : ThreadID)
  | addRecord (tid : ThreadID) (keyLog : PeerID) (body : Node)
  | putRecord (tid : ThreadID) (lid : PeerID) (rec : ThreadRecord)
  | dispatched (req : PushRecordRequest)
  | logError (msg : String)
deriving DecidableEq, Repr

/-- External collaborators of the service: host identity and key material,
crypto adapter, record codec, log directory, block store, and the owning
`threads` component (createLog, PutRecord, AddRecord). -/
structure Env where
  hostID : PeerID
  privKey : Option PrivKey
  matchesPublicKey : PeerID → PubKey → Bool
  extractPublicKey : PeerID → Except String (Option PubKey)
  verify : PubKey → Bytes → Bytes → Except String Bool
  sign : PrivKey → Bytes → Except String Bytes
  pubOfPriv : PrivKey → PubKey
  newDecryptionKey : PrivKey → Except String DecKey
  protoKeyOfOpt : Option DecKey → DecKey
  marshalRecord : PbRecord → Except String Bytes
  recordFromProto : PbRecord → DecKey → Except String ThreadRecord
  recordToProto : ThreadRecord → Except String PbRecord
  eventFromRecord : ThreadRecord → Except String EventData
  getBody : EventData → DecKey → Except String Node
  logsFromNode : Node → Except String LogsDoc
  newLogs : List LogInfo → Bool → Except String Node
  recVerify : ThreadRecord → PubKey → Except String Unit
  newMultiaddr : String → Except String Multiaddr
  idFromBytes : Bytes → Except String PeerID
  unmarshalPushRecordRequest : Bytes → Except String PushRecordRequest
  followKey : ThreadID → PeerID → Except String (Option DecKey)
  readKey : ThreadID → PeerID → Except String (Option DecKey)
  pubKey : ThreadID → PeerID → Except String (Option PubKey)
  threadInfo : ThreadID → Except String ThreadInfo
  addrs : ThreadID → PeerID → Except String (List Multiaddr)
  addLog : ThreadID → LogInfo → Except String Unit
  addAddr : ThreadID → PeerID → Multiaddr → AddrTTL → Except String Unit
  createLog : Except String LogInfo
  putRecord : ThreadID → PeerID → ThreadRecord → Except String Unit
  addRecord : ThreadID → PeerID → Node → Except String Unit
  bstoreHas : Cid → Except String Bool

/-- requestPubKey, service.go lines 785-807: resolve the key associated with
a request.  Called only after the nil-header check, so it takes the header.
The Go error string interpolates the source ID; the model keeps a fixed
message. -/
def requestPubKey (env : Env) (hdr : PushHeader) : Except String PubKey :=
  match hdr.Key with
  | none =>
    match env.extractPublicKey hdr.From with
    | .error e => .error ("cannot extract signing key: " ++ e)
    | .ok none => .error "cannot extract signing key"
    | .ok (some pubk) => .ok pubk
  | some k =>
    if env.matchesPublicKey hdr.From k then .ok k
    else .error "bad signing key; source ID does not match key"

/-- verifyRequestSignature, service.go lines 810-820: marshal the wire
record and verify the transport signature; a false result or a verifier
error both become "bad signature". -/
def verifyRequestSignature (env : Env) (rec : PbRecord) (pk : PubKey) (sig : Bytes) :
    Except String Unit :=
  match env.marshalRecord rec with
  | .error e => .error e
  | .ok payload =>
    match env.verify pk payload sig with
    | .error _ => .error "bad signature"
    | .ok true => .ok ()
    | .ok false => .error "bad signature"

/-- Lines 117-125 of PushRecord: select the envelope decryption key — the
header follow key when present, otherwise the directory lookup. -/
def selectFollowKey (env : Env) (req : PushRecordRequest) (hdr : PushHeader) :
    Except String (Option DecKey) :=
  match hdr.FollowKey with
  | some k => .ok (some k)
  | none => env.followKey req.ThreadID req.LogID

/-- Lines 147-151 of PushRecord: the key-log id taken from the header, or
the zero peer id when the header field is unset. -/
def headerKid (hdr : PushHeader) : PeerID :=
  match hdr.ReadKeyLogID with
  | some k => k
  | none => emptyPeerID

/-- Incoming-log loop of handleNewLogs, service.go lines 678-704: for each
entry, enforce the LogID/PubKey binding, verify the record against the entry
carrying it, upsert it into the directory, and spawn a history pull. -/
def newLogsLoop (env : Env) (id : ThreadID) (lid : PeerID) (rec : ThreadRecord) :
    List LogInfo → List Effect → Except String Unit × List Effect
  | [], es => (.ok (), es)
  | lg :: rest, es =>
    if env.matchesPublicKey lg.ID lg.PubKey = false then
      (.error "invalid log", es)
    else
      match (if lg.ID = lid then env.recVerify rec lg.PubKey else .ok ()) with
      | .error e => (.error e, es)
      | .ok _ =>
        match env.addLog id lg with
        | .error e => (.error e, es)
        | .ok _ =>
          newLogsLoop env id lid rec rest
            (es ++ [.addLog id lg, .pullHistory id lg.ID])

/-- Decryption-key resolution of handleNewLogs, service.go lines 638-666:
an existing thread uses the read key of the header's key log; a brand-new
thread derives an asymmetric key from the host private key.  The boolean is
`newThread`. -/
def newLogsKey (env : Env) (id : ThreadID) (kid : PeerID) (ti : ThreadInfo) :
    Except String (DecKey × Bool) :=
  if 0 < ti.Logs.length then
    match env.readKey id kid with
    | .error e => .error e
    | .ok none => .error "read key not found"
    | .ok (some key) => .ok (key, false)
  else
    match env.privKey with
    | none => .error "key for host not found"
    | some sk =>
      match env.newDecryptionKey sk with
      | .error e => .error e
      | .ok key => .ok (key, true)

/-- handleNewLogs, service.go lines 626-739: process a record as a list of
new logs, producing an optional own log and an optional new address. -/
def handleNewLogs (env : Env) (id : ThreadID) (lid kid : PeerID) (rec : ThreadRecord)
    (es : List Effect) :
    Except String (Option LogInfo × Option Multiaddr) × List Effect :=
  match env.eventFromRecord rec with
  | .error e => (.error e, es)
  | .ok event =>
    match env.threadInfo id with
    | .error e => (.error e, es)
    | .ok ti =>
      match newLogsKey env id kid ti with
      | .error e => (.error e, es)
      | .ok (key, newThread) =>
        match env.getBody event key with
        | .error e => (.error e, es)
        | .ok body =>
          match env.logsFromNode body with
          | .error e => (.error e, es)
          | .ok lgs =>
            match newLogsLoop env id lid rec lgs.Logs es with
            | (.error e, es1) => (.error e, es1)
            | (.ok _, es1) =>
              -- Create an own log if this is a new thread (lines 707-718)
              let step2 : Except String (Option LogInfo) × List Effect :=
                if lgs.Readable && newThread then
                  match env.createLog with
                  | .error e => (.error e, es1)
                  | .ok lg =>
                    match env.addLog id lg with
                    | .error e => (.error e, es1)
                    | .ok _ => (.ok (some lg), es1 ++ [.addLog id lg])
                else (.ok none, es1)
              match step2 with
              | (.error e, es2) => (.error e, es2)
              | (.ok ownLog, es2) =>
                -- Follower address for the sender's log (lines 722-732)
                let step3 : Except String (Option Multiaddr) × List Effect :=
                  if lgs.Readable = false then
                    match env.newMultiaddr
                        ("/" ++ p2pProtocolName ++ "/" ++ toString env.hostID) with
                    | .error e => (.error e, es2)
                    | .ok newAddr =>
                      match env.addAddr id lid newAddr .permanent with
                      | .error e => (.error e, es2)
                      | .ok _ =>
                        (.ok (some newAddr), es2 ++ [.addAddr id lid newAddr .permanent])
                  else (.ok none, es2)
                match step3 with
                | (.error e, es3) => (.error e, es3)
                | (.ok newAddr, es3) =>
                  -- Subscribe to the new thread (lines 735-737)
                  if newThread then
                    (.ok (ownLog, newAddr), es3 ++ [.subscribeThread id])
                  else
                    (.ok (ownLog, newAddr), es3)

/-- Update loop of handleLogUpdate, service.go lines 765-780: only the entry
matching the record's own log is re-verified and upserted. -/
def logUpdateLoop (env : Env) (id : ThreadID) (lid : PeerID) (rec : ThreadRecord) :
    List LogInfo → List Effect → Except String Unit × List Effect
  | [], es => (.ok (), es)
  | lg :: rest, es =>
    if env.matchesPublicKey lg.ID lg.PubKey = false then
      (.error "invalid log", es)
    else if lg.ID ≠ lid then
      logUpdateLoop env id lid rec rest es
    else
      match env.recVerify rec lg.PubKey with
      | .error e => (.error e, es)
      | .ok _ =>
        match env.addLog id lg with
        | .error e => (.error e, es)
        | .ok _ => logUpdateLoop env id lid rec rest (es ++ [.addLog id lg])

/-- handleLogUpdate, service.go lines 742-782: process a record as a log
update; absence of a read key is not an error. -/
def handleLogUpdate (env : Env) (id : ThreadID) (lid : PeerID) (rec : ThreadRecord)
    (es : List Effect) : Except String Unit × List Effect :=
  match env.eventFromRecord rec with
  | .error e => (.error e, es)
  | .ok event =>
    match env.readKey id lid with
    | .error e => (.error e, es)
    | .ok none => (.ok (), es) -- No key, carry on
    | .ok (some key) =>
      match env.getBody event key with
      | .error e => (.error e, es)
      | .ok body =>
        match env.logsFromNode body with
        | .error e => (.error e, es)
        | .ok lgs => logUpdateLoop env id lid rec lgs.Logs es

/-- Final step of PushRecord, service.go lines 187-195: persist the record
via the owning component's PutRecord and return the reply. -/
def putAndReply (env : Env) (req : PushRecordRequest) (rec : ThreadRecord)
    (reply : PushRecordReply) (es : List Effect) :
    Except String PushRecordReply × List Effect :=
  match env.putRecord req.ThreadID req.LogID rec with
  | .error e => (.error e, es)
  | .ok _ => (.ok reply, es ++ [.putRecord req.ThreadID req.LogID rec])

/-- PushRecord, service.go lines 99-196: the central push-record handler. -/
def PushRecord (env : Env) (req : PushRecordRequest) (es : List Effect) :
    Except String PushRecordReply × List Effect :=
  match req.Header with
  | none => (.error "request header is required", es)
  | some hdr =>
    match requestPubKey env hdr with
    | .error e => (.error e, es)
    | .ok reqpk =>
      match verifyRequestSignature env req.Record reqpk hdr.Signature with
      | .error e => (.error e, es)
      | .ok _ =>
        match selectFollowKey env req hdr with
        | .error e => (.error e, es)
        | .ok none => (.error "follow key not found", es)
        | .ok (some key) =>
          match env.recordFromProto req.Record key with
          | .error e => (.error e, es)
          | .ok rec =>
            match env.bstoreHas rec.cid with
            | .error e => (.error e, es)
            | .ok true => (.ok { NewAddr := none }, es)
            | .ok false =>
              match env.pubKey req.ThreadID req.LogID with
              | .error e => (.error e, es)
              | .ok none =>
                match handleNewLogs env req.ThreadID req.LogID (headerKid hdr) rec es with
                | (.error e, es1) => (.error e, es1)
                | (.ok (own, newAddr), es1) =>
                  match own with
                  | some lg =>
                    -- Notify existing logs of our new log (lines 161-175)
                    match env.newLogs [lg] true with
                    | .error e => (.error e, es1)
                    | .ok lgsNode =>
                      match env.addRecord req.ThreadID req.LogID lgsNode with
                      | .error e => (.error e, es1)
                      | .ok _ =>
                        putAndReply env req rec { NewAddr := newAddr }
                          (es1 ++ [.addRecord req.ThreadID req.LogID lgsNode])
                  | none => putAndReply env req rec { NewAddr := newAddr } es1
              | .ok (some logpk) =>
                match env.recVerify rec logpk with
                | .error e => (.error e, es)
                | .ok _ =>
                  -- A handleLogUpdate error is swallowed (lines 182-184)
                  match handleLogUpdate env req.ThreadID req.LogID rec es with
                  | (_, es1) => putAndReply env req rec { NewAddr := none } es1

/-- Pubsub message as delivered by the gossip layer: raw sender bytes and
payload bytes. -/
structure PubsubMsg where
  From : Bytes
  Data : Bytes
deriving DecidableEq, Repr

/-- Body of the subscription loop, service.go lines 583-613, over the list
of messages delivered before the subscription closes.  A sender-decode
failure breaks the loop; a self-echo is discarded; a payload-decode or
PushRecord error is logged and the loop continues. -/
def subscribeLoop (env : Env) : List PubsubMsg → List Effect → List Effect
  | [], es => es
  | msg :: rest, es =>
    match env.idFromBytes msg.From with
    | .error e => es ++ [.logError e] -- log.Error(err); break
    | .ok fromPid =>
      if fromPid = env.hostID then
        subscribeLoop env rest es -- self-echo: continue
      else
        match env.unmarshalPushRecordRequest msg.Data with
        | .error e => subscribeLoop env rest (es ++ [.logError e])
        | .ok req =>
          match PushRecord env req (es ++ [.dispatched req]) with
          | (.error e, es1) => subscribeLoop env rest (es1 ++ [.logError e])
          | (.ok _, es1) => subscribeLoop env rest es1

/-- Caller-supplied settings of an AddRecord call, `tserv.AddSettings`. -/
structure AddSettings where
  ThreadID : ThreadID
  KeyLog : PeerID
  Addrs : List Multiaddr
deriving DecidableEq, Repr

/-- Writer-address collection of pushRecord, service.go lines 235-244: the
stored addresses of every log of the thread other than the record's log. -/
def collectAddrs (env : Env) (tid : ThreadID) (lid : PeerID) :
    List PeerID → Except String (List Multiaddr)
  | [] => .ok []
  | l :: rest =>
    if l = lid then collectAddrs env tid lid rest
    else
      match env.addrs tid l with
      | .error e => .error e
      | .ok laddrs =>
        match collectAddrs env tid lid rest with
        | .error e => .error e
        | .ok more => .ok (laddrs ++ more)

/-- Request-building portion of pushRecord, service.go lines 229-290:
collect target addresses, serialize and sign the record, and build the
outbound PushRecordRequest.  The concurrent per-address fan-out and the
topic publish that follow (lines 292-373) are outside this model. -/
def pushRecordBuild (env : Env) (rec : ThreadRecord) (id : ThreadID) (lid : PeerID)
    (settings : AddSettings) : Except String (List Multiaddr × PushRecordRequest) :=
  match env.threadInfo settings.ThreadID with
  | .error e => .error e
  | .ok info =>
    match collectAddrs env settings.ThreadID lid info.Logs with
    | .error e => .error e
    | .ok collected =>
      match env.recordToProto rec with
      | .error e => .error e
      | .ok pbrec =>
        match env.marshalRecord pbrec with
        | .error e => .error e
        | .ok payload =>
          match env.privKey with
          | none => .error "key for host not found"
          | some sk =>
            match env.sign sk payload with
            | .error e => .error e
            | .ok sig =>
              match env.readKey settings.ThreadID settings.KeyLog with
              | .error e => .error e
              | .ok logKey =>
                match env.followKey id lid with
                | .error e => .error e
                | .ok followKey =>
                  .ok (collected ++ settings.Addrs,
                    { Header := some
                        { From := env.hostID
                          Signature := sig
                          Key := some (env.pubOfPriv sk)
                          FollowKey := some (env.protoKeyOfOpt followKey)
                          ReadKeyLogID :=
                            match logKey with
                            | some _ => some settings.KeyLog
                            | none => none }
                      ThreadID := id
                      LogID := lid
                      Record := pbrec })

/-- Ordered record aggregator, service.go lines 376-381. -/
structure records where
  m : List (Cid × ThreadRecord)
  s : List ThreadRecord
deriving DecidableEq, Repr

/-- newRecords, service.go lines 384-389. -/
def newRecords : records := { m := [], s := [] }

/-- Membership test of the Go map `r.m`. -/
def records.hasKey (r : records) (key : Cid) : Bool :=
  r.m.any fun kv => kv.1 == key

/-- List, service.go lines 392-396. -/
def records.List (r : records) : List ThreadRecord := r.s

/-- Store, service.go lines 399-407: a no-op when the key is known,
otherwise map insert plus slice append. -/
def records.Store (r : records) (key : Cid) (value : ThreadRecord) : records :=
  if r.hasKey key then r
  else { m := r.m ++ [(key, value)], s := r.s ++ [value] }

/-- Fold a sequence of Store calls over an aggregator. -/
def applyStores (r : records) : List (Cid × ThreadRecord) → records
  | [] => r
  | (k, v) :: rest => applyStores (r.Store k v) rest

/-- Specification-side description of the aggregator contents: the first
occurrence of each distinct CID, in insertion order, given the CIDs already
seen. -/
def firstOccsAux (seen : List Cid) : List (Cid × ThreadRecord) → List (Cid × ThreadRecord)
  | [] => []
  | (k, v) :: rest =>
    if seen.contains k then firstOccsAux seen rest
    else (k, v) :: firstOccsAux (k :: seen) rest

/-- Incoming readable log descriptor used by concrete scenarios. -/
def lgInc : LogInfo :=
  { ID := 5, PubKey := 5, FollowKey := some 3, ReadKey := some 4, Addrs := [], Heads := [] }

/-- Incoming follower-only log descriptor (no read key). -/
def lgIncFollow : LogInfo :=
  { ID := 5, PubKey := 5, FollowKey := some 3, ReadKey := none, Addrs := [], Heads := [] }

/-- Log descriptor violating the LogID/PubKey binding under `envW`. -/
def lgBad : LogInfo :=
  { ID := 6, PubKey := 7, FollowKey := some 3, ReadKey := some 4, Addrs := [], Heads := [] }

/-- Own log minted by `envW.createLog`. -/
def lgOwn : LogInfo :=
  { ID := 9, PubKey := 9, FollowKey := some 31, ReadKey := some 41, Addrs := [], Heads := [] }

/-- Concrete environment for witnesses: host peer 100, identity-bound keys
(`matchesPublicKey` is key equality), all external calls succeeding, the
thread new to this peer, and the pushed record unknown to the block store. -/
def envW : Env :=
  { hostID := 100
    privKey := some 7
    matchesPublicKey := fun p k => p == k
    extractPublicKey := fun p => .ok (some p)
    verify := fun _ _ _ => .ok true
    sign := fun _ _ => .ok [1]
    pubOfPriv := fun k => k
    newDecryptionKey := fun k => .ok k
    protoKeyOfOpt := fun k => k.getD 0
    marshalRecord := fun r => .ok [r]
    recordFromProto := fun r _ => .ok { cid := r, payload := r }
    recordToProto := fun r => .ok r.payload
    eventFromRecord := fun r => .ok r.payload
    getBody := fun e _ => .ok e
    logsFromNode := fun _ => .ok { Logs := [lgInc] }
    newLogs := fun _ _ => .ok 77
    recVerify := fun _ _ => .ok ()
    newMultiaddr := fun s => .ok s
    idFromBytes := fun b =>
      match b with
      | [] => .error "invalid peer id"
      | x :: _ => .ok x
    unmarshalPushRecordRequest := fun _ => .error "unmarshal error"
    followKey := fun _ _ => .ok (some 3)
    readKey := fun _ _ => .ok (some 4)
    pubKey := fun _ _ => .ok none
    threadInfo := fun _ => .ok { Logs := [] }
    addrs := fun _ _ => .ok []
    addLog := fun _ _ => .ok ()
    addAddr := fun _ _ _ _ => .ok ()
    createLog := .ok lgOwn
    putRecord := fun _ _ _ => .ok ()
    addRecord := fun _ _ _ => .ok ()
    bstoreHas := fun _ => .ok false }

/-- Header of the concrete push request: sender 5 with attached key 5. -/
def hdrW : PushHeader :=
  { From := 5, Signature := [9], Key := some 5, FollowKey := some 3, ReadKeyLogID := none }

/-- Concrete push request for record 42 on log 5 of thread 1. -/
def reqW : PushRecordRequest :=
  { Header := some hdrW, ThreadID := 1, LogID := 5, Record := 42 }

/-- Record decoded from `reqW` under `envW`. -/
def recW : ThreadRecord := { cid := 42, payload := 42 }

/-- Variant of `envW` whose block store already holds every record. -/
def envKnown : Env := { envW with bstoreHas := fun _ => .ok true }

/-- Variant of `envW` delivering a Logs document whose second entry breaks
the LogID/PubKey binding. -/
def envBadEntry : Env :=
  { envW with logsFromNode := fun _ => .ok { Logs := [lgInc, lgBad] } }

/-- Variant of `envW` for the subscription loop: payload `[1]` decodes to
`reqW`, anything else fails to decode. -/
def envSub : Env :=
  { envW with unmarshalPushRecordRequest := fun d =>
      if d = [1] then .ok reqW else .error "unmarshal error" }

/-- Gossip message whose sender bytes do not parse as a peer id. -/
def msgBadFrom : PubsubMsg := { From := [], Data := [1] }

/-- Well-formed gossip message from remote peer 5 carrying `reqW`. -/
def msgGood : PubsubMsg := { From := [5], Data := [1] }

/-- Effects of a run of `newLogsLoop` extend its input effect list, and the
new effects are only directory upserts and spawned history pulls for the
processed thread. -/
theorem newLogsLoop_extends (env : Env) (id : ThreadID) (lid : PeerID) (rec : ThreadRecord) :
    ∀ (l : List LogInfo) (es : List Effect) (r : Except String Unit) (es1 : List Effect),
      newLogsLoop env id lid rec l es = (r, es1) →
      ∃ t, es1 = es ++ t ∧ ∀ e ∈ t,
        (∃ lg, e = Effect.addLog id lg) ∨ (∃ p, e = Effect.pullHistory id p) := by
  intro l
  induction l with
  | nil =>
    intro es r es1 h
    simp only [newLogsLoop, Prod.mk.injEq] at h
    exact ⟨[], by simp [← h.2], by simp⟩
  | cons lg rest ih =>
    intro es r es1 h
    simp only [newLogsLoop] at h
    split at h
    · rw [Prod.mk.injEq] at h
      exact ⟨[], by simp [← h.2], by simp⟩
    · split at h
      · rw [Prod.mk.injEq] at h
        exact ⟨[], by simp [← h.2], by simp⟩
      · split at h
        · rw [Prod.mk.injEq] at h
          exact ⟨[], by simp [← h.2], by simp⟩
        · obtain ⟨t, ht, hmem⟩ := ih _ _ _ h
          refine ⟨[Effect.addLog id lg, Effect.pullHistory id lg.ID] ++ t, ?_, ?_⟩
          · simp [ht]
          · intro e he
            rcases List.mem_append.mp he with h1 | h2
            · rcases List.mem_cons.mp h1 with h3 | h4
              · exact Or.inl ⟨lg, h3⟩
              · exact Or.inr ⟨lg.ID, by simpa using h4⟩
            · exact hmem e h2

/-- Successful runs of `newLogsLoop` record an upsert for every processed
log descriptor. -/
theorem newLogsLoop_mem (env : Env) (id : ThreadID) (lid : PeerID) (rec : ThreadRecord) :
    ∀ (l : List LogInfo) (es es1 : List Effect),
      newLogsLoop env id lid rec l es = (.ok (), es1) →
      ∀ lg ∈ l, Effect.addLog id lg ∈ es1 := by
  intro l
  induction l with
  | nil => intro es es1 _ lg hlg; simp at hlg
  | cons hd rest ih =>
    intro es es1 h lg hlg
    simp only [newLogsLoop] at h
    split at h
    · exact absurd (congrArg Prod.fst h) (by simp)
    · split at h
      · exact absurd (congrArg Prod.fst h) (by simp)
      · split at h
        · exact absurd (congrArg Prod.fst h) (by simp)
        · rcases List.mem_cons.mp hlg with h1 | h2
          · obtain ⟨t, ht, _⟩ := newLogsLoop_extends env id lid rec _ _ _ _ h
            subst h1
            simp [ht]
          · exact ih _ _ h lg h2

/-- Runs of `newLogsLoop` decompose along list append. -/
theorem newLogsLoop_append (env : Env) (id : ThreadID) (lid : PeerID) (rec : ThreadRecord)
    (l1 l2 : List LogInfo) (es : List Effect) :
    newLogsLoop env id lid rec (l1 ++ l2) es =
      (match newLogsLoop env id lid rec l1 es with
       | (.ok _, es1) => newLogsLoop env id lid rec l2 es1
       | (.error e, es1) => (.error e, es1)) := by
  induction l1 generalizing es with
  | nil => rfl
  | cons lg rest ih =>
    simp only [List.cons_append, newLogsLoop]
    split
    · rfl
    · split
      · rfl
      · split
        · rfl
        · exact ih _

/-- Claim C1: when the decoded record's CID is already in the block store,
PushRecord returns a success reply with an empty NewAddr and performs no
side effects — no new-log merge, no log-update merge, no PutRecord persist,
and no follow-up AddRecord broadcast — so a second push of the same record
has no effect beyond the first. -/
theorem pushRecord_dedup_noop (env : Env) (req : PushRecordRequest) (hdr : PushHeader)
    (pk : PubKey) (key : DecKey) (rec : ThreadRecord) (es : List Effect)
    (hhdr : req.Header = some hdr)
    (hpk : requestPubKey env hdr = .ok pk)
    (hsig : verifyRequestSignature env req.Record pk hdr.Signature = .ok ())
    (hkey : selectFollowKey env req hdr = .ok (some key))
    (hrec : env.recordFromProto req.Record key = .ok rec)
    (hhas : env.bstoreHas rec.cid = .ok true) :
    PushRecord env req es = (.ok { NewAddr := none }, es) := by
  simp only [PushRecord, hhdr, hpk, hsig, hkey, hrec, hhas]

/-- Witness for claim C1 at a concrete environment and request. -/
theorem pushRecord_dedup_noop_witness :
    PushRecord envKnown reqW [] = (.ok { NewAddr := none }, []) :=
  pushRecord_dedup_noop envKnown reqW hdrW 5 3 recW [] rfl rfl rfl rfl rfl rfl

/-- Claim C5: the envelope key is the header follow key when that header
field is set, and the directory lookup `FollowKey(threadID, logID)`
otherwise; when neither yields a key PushRecord fails with
"follow key not found" and the record is neither decoded, merged, nor
persisted (the effect list is unchanged). -/
theorem pushRecord_follow_key_selection (env : Env) (req : PushRecordRequest)
    (hdr : PushHeader) (pk : PubKey) (k : DecKey) (es : List Effect)
    (hhdr : req.Header = some hdr)
    (hpk : requestPubKey env hdr = .ok pk)
    (hsig : verifyRequestSignature env req.Record pk hdr.Signature = .ok ()) :
    (hdr.FollowKey = some k → selectFollowKey env req hdr = .ok (some k)) ∧
    (hdr.FollowKey = none →
      selectFollowKey env req hdr = env.followKey req.ThreadID req.LogID) ∧
    (selectFollowKey env req hdr = .ok none →
      PushRecord env req es = (.error "follow key not found", es)) ∧
    (hdr.FollowKey = none → env.followKey req.ThreadID req.LogID = .ok none →
      PushRecord env req es = (.error "follow key not found", es)) := by
  refine ⟨?_, ?_, ?_, ?_⟩
  · intro hfk; simp only [selectFollowKey, hfk]
  · intro hfk; simp only [selectFollowKey, hfk]
  · intro hsel; simp only [PushRecord, hhdr, hpk, hsig, hsel]
  · intro hfk hdir
    have hsel : selectFollowKey env req hdr = .ok none := by
      simp only [selectFollowKey, hfk, hdir]
    simp only [PushRecord, hhdr, hpk, hsig, hsel]

/-- Witness for claim C5: a request with no header follow key and no
directory follow key is rejected with "follow key not found". -/
theorem pushRecord_follow_key_selection_witness :
    PushRecord
        { envW with followKey := fun _ _ => .ok none }
        { reqW with Header := some { hdrW with FollowKey := none } } [] =
      (.error "follow key not found", []) :=
  ((pushRecord_follow_key_selection
      { envW with followKey := fun _ _ => .ok none }
      { reqW with Header := some { hdrW with FollowKey := none } }
      { hdrW with FollowKey := none } 5 3 [] rfl rfl rfl).2.2.2) rfl rfl

/-- Claim C6: with a header present, an attached header key is used as the
signer key and the request is rejected when `header.From` does not match
it; without an attached key the signer key is extracted from `header.From`
and the request is rejected when extraction fails; and a request whose
signature does not verify over the marshalled record under the resolved
key is rejected with "bad signature" and no state change. -/
theorem pushRecord_signer_resolution (env : Env) (req : PushRecordRequest)
    (hdr : PushHeader) (es : List Effect) (k pk : PubKey) (e : String) (payload : Bytes)
    (hhdr : req.Header = some hdr) :
    (hdr.Key = some k → env.matchesPublicKey hdr.From k = false →
      PushRecord env req es =
        (.error "bad signing key; source ID does not match key", es)) ∧
    (hdr.Key = some k → env.matchesPublicKey hdr.From k = true →
      requestPubKey env hdr = .ok k) ∧
    (hdr.Key = none → env.extractPublicKey hdr.From = .error e →
      PushRecord env req es = (.error ("cannot extract signing key: " ++ e), es)) ∧
    (hdr.Key = none → env.extractPublicKey hdr.From = .ok none →
      PushRecord env req es = (.error "cannot extract signing key", es)) ∧
    (hdr.Key = none → env.extractPublicKey hdr.From = .ok (some pk) →
      requestPubKey env hdr = .ok pk) ∧
    (requestPubKey env hdr = .ok pk → env.marshalRecord req.Record = .ok payload →
      env.verify pk payload hdr.Signature = .ok false →
      PushRecord env req es = (.error "bad signature", es)) := by
  refine ⟨?_, ?_, ?_, ?_, ?_, ?_⟩
  · intro hk hm
    have hrq : requestPubKey env hdr =
        .error "bad signing key; source ID does not match key" := by
      simp only [requestPubKey, hk, hm]
      simp
    simp only [PushRecord, hhdr, hrq]
  · intro hk hm
    simp only [requestPubKey, hk, hm]
    simp
  · intro hk hx
    have hrq : requestPubKey env hdr = .error ("cannot extract signing key: " ++ e) := by
      simp only [requestPubKey, hk, hx]
    simp only [PushRecord, hhdr, hrq]
  · intro hk hx
    have hrq : requestPubKey env hdr = .error "cannot extract signing key" := by
      simp only [requestPubKey, hk, hx]
    simp only [PushRecord, hhdr, hrq]
  · intro hk hx
    simp only [requestPubKey, hk, hx]
  · intro hrq hmar hver
    have hv : verifyRequestSignature env req.Record pk hdr.Signature =
        .error "bad signature" := by
      simp only [verifyRequestSignature, hmar, hver]
    simp only [PushRecord, hhdr, hrq, hv]

/-- Witness for claim C6: a request whose attached key does not match the
sender identity is rejected with no state change. -/
theorem pushRecord_signer_resolution_witness :
    PushRecord envW { reqW with Header := some { hdrW with Key := some 6 } } [] =
      (.error "bad signing key; source ID does not match key", []) :=
  ((pushRecord_signer_resolution envW
      { reqW with Header := some { hdrW with Key := some 6 } }
      { hdrW with Key := some 6 } [] 6 5 "x" [] rfl).1) rfl rfl

/-- Formalization of claim C2 as stated: in a PushRecord effect trace, any
follow-up AddRecord broadcast comes strictly after the PutRecord persist. -/
def persistPrecedesBroadcast (effs : List Effect) : Prop :=
  ∀ i j t1 kl nd t2 l r,
    effs.get? i = some (.addRecord t1 kl nd) →
    effs.get? j = some (.putRecord t2 l r) →
    j < i

/-- Counterexample to claim C2: at a concrete accepted record that produces
an ownLog, the AddRecord broadcast effect (index 4 of the trace) precedes
the PutRecord persist (index 5), so persistence does not precede the
follow-up broadcast. -/
theorem pushRecord_broadcast_order_cex :
    (PushRecord envW reqW []).1 = .ok { NewAddr := none } ∧
    ¬ persistPrecedesBroadcast (PushRecord envW reqW []).2 := by
  refine ⟨rfl, ?_⟩
  intro h
  have h45 := h 4 5 1 5 77 1 5 recW rfl rfl
  omega

/-- Claim C2 amended: for every accepted record that produces an ownLog,
the follow-up AddRecord broadcast advertising ownLog is issued first, and
the record is persisted via PutRecord immediately afterwards, as the final
step of PushRecord; the NewAddr reply value is fixed before either. -/
theorem pushRecord_broadcast_then_persist (env : Env) (req : PushRecordRequest)
    (hdr : PushHeader) (pk : PubKey) (key : DecKey) (rec : ThreadRecord)
    (es es1 : List Effect) (lg : LogInfo) (newAddr : Option Multiaddr) (node : Node)
    (hhdr : req.Header = some hdr)
    (hpk : requestPubKey env hdr = .ok pk)
    (hsig : verifyRequestSignature env req.Record pk hdr.Signature = .ok ())
    (hkey : selectFollowKey env req hdr = .ok (some key))
    (hrec : env.recordFromProto req.Record key = .ok rec)
    (hhas : env.bstoreHas rec.cid = .ok false)
    (hpub : env.pubKey req.ThreadID req.LogID = .ok none)
    (hnew : handleNewLogs env req.ThreadID req.LogID (headerKid hdr) rec es =
      (.ok (some lg, newAddr), es1))
    (hnode : env.newLogs [lg] true = .ok node)
    (haddrec : env.addRecord req.ThreadID req.LogID node = .ok ())
    (hput : env.putRecord req.ThreadID req.LogID rec = .ok ()) :
    PushRecord env req es =
      (.ok { NewAddr := newAddr },
       (es1 ++ [.addRecord req.ThreadID req.LogID node]) ++
         [.putRecord req.ThreadID req.LogID rec]) := by
  simp only [PushRecord, hhdr, hpk, hsig, hkey, hrec, hhas, hpub, hnew, hnode, haddrec,
    putAndReply, hput]

/-- Witness for the amended claim C2 at the concrete new-thread scenario. -/
theorem pushRecord_broadcast_then_persist_witness :
    PushRecord envW reqW [] =
      (.ok { NewAddr := none },
       ([.addLog 1 lgInc, .pullHistory 1 5, .addLog 1 lgOwn, .subscribeThread 1,
         .addRecord 1 5 77] ++ [.putRecord 1 5 recW])) := by
  have h := pushRecord_broadcast_then_persist envW reqW hdrW 5 3 recW []
    [.addLog 1 lgInc, .pullHistory 1 5, .addLog 1 lgOwn, .subscribeThread 1]
    lgOwn none 77 rfl rfl rfl rfl rfl rfl rfl rfl rfl rfl rfl
  simpa using h

/-- Claim C3: when the Logs document processed by handleNewLogs has no
readable entry, a multiaddress "/p2p/<this-peer-id>" is registered in the
directory as a permanent address of the sender's log and returned as
newAddr, and no ownLog is produced; and in every successful run an ownLog
is produced only when the document is readable and the thread is new. -/
theorem handleNewLogs_follower_role (env : Env) (id : ThreadID) (lid kid : PeerID)
    (rec : ThreadRecord) (es es1 : List Effect) (event : EventData) (ti : ThreadInfo)
    (key : DecKey) (newThread : Bool) (body : Node) (lgs : LogsDoc) (addr : Multiaddr)
    (hev : env.eventFromRecord rec = .ok event)
    (hti : env.threadInfo id = .ok ti)
    (hkey : newLogsKey env id kid ti = .ok (key, newThread))
    (hbody : env.getBody event key = .ok body)
    (hlgs : env.logsFromNode body = .ok lgs)
    (hloop : newLogsLoop env id lid rec lgs.Logs es = (.ok (), es1))
    (hma : env.newMultiaddr ("/" ++ p2pProtocolName ++ "/" ++ toString env.hostID) =
      .ok addr)
    (hadd : env.addAddr id lid addr .permanent = .ok ()) :
    (lgs.Readable = false →
      handleNewLogs env id lid kid rec es =
        (.ok (none, some addr),
         (es1 ++ [.addAddr id lid addr .permanent]) ++
           (if newThread then [.subscribeThread id] else []))) ∧
    (∀ own newAddr es2,
      handleNewLogs env id lid kid rec es = (.ok (own, newAddr), es2) →
      own.isSome = true → lgs.Readable = true ∧ newThread = true) := by
  constructor
  · intro hr
    simp only [handleNewLogs, hev, hti, hkey, hbody, hlgs, hloop, hr, hma, hadd,
      Bool.false_and, Bool.false_eq_true, if_false]
    cases newThread <;> simp
  · intro own newAddr es2 hrun hsome
    cases hr : lgs.Readable with
    | false =>
      rw [handleNewLogs] at hrun
      simp only [hev, hti, hkey, hbody, hlgs, hloop, hr, hma, hadd, Bool.false_and,
        Bool.false_eq_true, if_false] at hrun
      cases newThread
      case false =>
        simp at hrun
        rw [← hrun.1.1] at hsome
        simp at hsome
      case true =>
        simp at hrun
        rw [← hrun.1.1] at hsome
        simp at hsome
    | true =>
      cases hnt : newThread with
      | false =>
        rw [handleNewLogs] at hrun
        simp only [hev, hti, hkey, hbody, hlgs, hloop, hr, hnt, Bool.and_false,
          Bool.true_eq_false, if_false] at hrun
        simp at hrun
        rw [← hrun.1.1] at hsome
        simp at hsome
      | true =>
        exact ⟨rfl, rfl⟩

/-- Concrete environment delivering a follower-only Logs document (no entry
carries a read key). -/
def envFollower : Env :=
  { envW with logsFromNode := fun _ => .ok { Logs := [lgIncFollow] } }

/-- Witness for claim C3: a non-readable Logs document on a new thread
yields the permanent follower address "/p2p/<host>" and no own log. -/
theorem handleNewLogs_follower_role_witness :
    handleNewLogs envFollower 1 5 0 recW [] =
      (.ok (none, some ("/" ++ p2pProtocolName ++ "/" ++ toString envFollower.hostID)),
       [.addLog 1 lgIncFollow, .pullHistory 1 5,
        .addAddr 1 5 ("/" ++ p2pProtocolName ++ "/" ++ toString envFollower.hostID)
          .permanent,
        .subscribeThread 1]) := by
  have h := (handleNewLogs_follower_role envFollower 1 5 0 recW []
      [.addLog 1 lgIncFollow, .pullHistory 1 5] recW.payload { Logs := [] } 7 true
      recW.payload { Logs := [lgIncFollow] }
      ("/" ++ p2pProtocolName ++ "/" ++ toString envFollower.hostID)
      rfl rfl rfl rfl rfl rfl rfl rfl).1 rfl
  simpa using h

/-- Claim C9: when handleNewLogs processes a readable Logs document on a
thread that already has local logs (so the thread is not new), it returns
neither ownLog nor newAddr and spawns no subscription, while still
upserting every incoming log entry; the only new effects are directory
upserts and spawned history pulls. -/
theorem handleNewLogs_existing_thread (env : Env) (id : ThreadID) (lid kid : PeerID)
    (rec : ThreadRecord) (es es1 : List Effect) (event : EventData) (ti : ThreadInfo)
    (key : DecKey) (body : Node) (lgs : LogsDoc)
    (hev : env.eventFromRecord rec = .ok event)
    (hti : env.threadInfo id = .ok ti)
    (hlen : 0 < ti.Logs.length)
    (hrk : env.readKey id kid = .ok (some key))
    (hbody : env.getBody event key = .ok body)
    (hlgs : env.logsFromNode body = .ok lgs)
    (hread : lgs.Readable = true)
    (hloop : newLogsLoop env id lid rec lgs.Logs es = (.ok (), es1)) :
    handleNewLogs env id lid kid rec es = (.ok (none, none), es1) ∧
    (∀ lg ∈ lgs.Logs, Effect.addLog id lg ∈ es1) ∧
    (∃ t, es1 = es ++ t ∧ ∀ e ∈ t,
      (∃ lg, e = Effect.addLog id lg) ∨ (∃ p, e = Effect.pullHistory id p)) := by
  have hkey : newLogsKey env id kid ti = .ok (key, false) := by
    simp only [newLogsKey, hlen, if_pos, hrk]
  refine ⟨?_, newLogsLoop_mem env id lid rec _ _ _ hloop,
    newLogsLoop_extends env id lid rec _ _ _ _ hloop⟩
  simp only [handleNewLogs, hev, hti, hkey, hbody, hlgs, hloop, hread, Bool.and_false,
    Bool.true_eq_false, if_false]
  simp

/-- Concrete environment whose directory already holds a log for thread 1,
with a readable incoming Logs document. -/
def envExisting : Env :=
  { envW with threadInfo := fun _ => .ok { Logs := [9] } }

/-- Witness for claim C9 at the concrete existing-thread scenario. -/
theorem handleNewLogs_existing_thread_witness :
    handleNewLogs envExisting 1 5 0 recW [] =
      (.ok (none, none), [.addLog 1 lgInc, .pullHistory 1 5]) ∧
    Effect.addLog 1 lgInc ∈ ([.addLog 1 lgInc, .pullHistory 1 5] : List Effect) := by
  have h := handleNewLogs_existing_thread envExisting 1 5 0 recW []
    [.addLog 1 lgInc, .pullHistory 1 5] recW.payload { Logs := [9] } 4
    recW.payload { Logs := [lgInc] }
    rfl rfl (by decide) rfl rfl rfl rfl rfl
  exact ⟨h.1, h.2.1 lgInc (by decide)⟩

/-- Counterexample to claim C4: at a concrete request whose Logs document
is [valid entry, invalid entry], PushRecord surfaces "invalid log" but the
valid entry has already been upserted into the directory — the rejection is
not atomic. -/
theorem pushRecord_invalid_log_cex :
    (PushRecord envBadEntry reqW []).1 = .error "invalid log" ∧
    Effect.addLog 1 lgInc ∈ (PushRecord envBadEntry reqW []).2 := by
  exact ⟨rfl, by decide⟩

/-- Claim C4 amended: a Logs document containing an entry whose LogID does
not match its PubKey makes the whole PushRecord fail with "invalid log"
surfaced to the RPC caller, and neither the invalid entry nor any later
entry is upserted; however, valid entries preceding the invalid one have
already been upserted when the error fires, so the directory state is not
rolled back. -/
theorem pushRecord_invalid_log_partial (env : Env) (req : PushRecordRequest)
    (hdr : PushHeader) (pk : PubKey) (key : DecKey) (rec : ThreadRecord)
    (es es1 : List Effect) (event : EventData) (ti : ThreadInfo) (dkey : DecKey)
    (newThread : Bool) (body : Node) (lgs : LogsDoc) (pre : List LogInfo)
    (bad : LogInfo) (rest : List LogInfo)
    (hhdr : req.Header = some hdr)
    (hpk : requestPubKey env hdr = .ok pk)
    (hsig : verifyRequestSignature env req.Record pk hdr.Signature = .ok ())
    (hkey : selectFollowKey env req hdr = .ok (some key))
    (hrec : env.recordFromProto req.Record key = .ok rec)
    (hhas : env.bstoreHas rec.cid = .ok false)
    (hpub : env.pubKey req.ThreadID req.LogID = .ok none)
    (hev : env.eventFromRecord rec = .ok event)
    (hti : env.threadInfo req.ThreadID = .ok ti)
    (hkres : newLogsKey env req.ThreadID (headerKid hdr) ti = .ok (dkey, newThread))
    (hbody : env.getBody event dkey = .ok body)
    (hlgs : env.logsFromNode body = .ok lgs)
    (hsplit : lgs.Logs = pre ++ bad :: rest)
    (hbad : env.matchesPublicKey bad.ID bad.PubKey = false)
    (hpre : newLogsLoop env req.ThreadID req.LogID rec pre es = (.ok (), es1)) :
    PushRecord env req es = (.error "invalid log", es1) ∧
    ∀ lg ∈ pre, Effect.addLog req.ThreadID lg ∈ es1 := by
  have hloop : newLogsLoop env req.ThreadID req.LogID rec lgs.Logs es =
      (.error "invalid log", es1) := by
    rw [hsplit, newLogsLoop_append, hpre]
    simp only [newLogsLoop, hbad, if_pos]
  have hnl : handleNewLogs env req.ThreadID req.LogID (headerKid hdr) rec es =
      (.error "invalid log", es1) := by
    simp only [handleNewLogs, hev, hti, hkres, hbody, hlgs, hloop]
  refine ⟨?_, newLogsLoop_mem env req.ThreadID req.LogID rec pre es es1 hpre⟩
  simp only [PushRecord, hhdr, hpk, hsig, hkey, hrec, hhas, hpub, hnl]

/-- Witness for the amended claim C4 at the concrete two-entry scenario. -/
theorem pushRecord_invalid_log_partial_witness :
    PushRecord envBadEntry reqW [] =
      (.error "invalid log", [.addLog 1 lgInc, .pullHistory 1 5]) ∧
    Effect.addLog 1 lgInc ∈ ([.addLog 1 lgInc, .pullHistory 1 5] : List Effect) := by
  have h := pushRecord_invalid_log_partial envBadEntry reqW hdrW 5 3 recW []
    [.addLog 1 lgInc, .pullHistory 1 5] recW.payload { Logs := [] } 7 true recW.payload
    { Logs := [lgInc, lgBad] } [lgInc] lgBad []
    rfl rfl rfl rfl rfl rfl rfl rfl rfl rfl rfl rfl rfl rfl rfl
  exact ⟨h.1, h.2 lgInc (by decide)⟩

/-- Counterexample to claim C7: a gossip message whose sender bytes do not
parse (so its sender is not the local peer) is not dispatched, and the loop
does not continue to the next message — a later well-formed remote message
carrying a decodable request is never dispatched to PushRecord. -/
theorem subscribeLoop_break_cex :
    envSub.idFromBytes msgGood.From = .ok 5 ∧ (5 : PeerID) ≠ envSub.hostID ∧
    envSub.unmarshalPushRecordRequest msgGood.Data = .ok reqW ∧
    envSub.idFromBytes msgBadFrom.From = .error "invalid peer id" ∧
    subscribeLoop envSub [msgBadFrom, msgGood] [] = [.logError "invalid peer id"] ∧
    Effect.dispatched reqW ∉ subscribeLoop envSub [msgBadFrom, msgGood] [] := by
  refine ⟨rfl, by decide, rfl, rfl, rfl, by decide⟩

/-- Claim C7 amended: for a message whose sender bytes parse, a sender equal
to the local peer is discarded without being dispatched; otherwise the
payload is decoded as a PushRecordRequest and dispatched to the same
PushRecord handler as direct RPC, with payload-decode and dispatch errors
logged while the loop continues to the next message; a message whose sender
bytes fail to parse, however, is logged and terminates the loop. -/
theorem subscribeLoop_dispatch (env : Env) (msg : PubsubMsg) (rest : List PubsubMsg)
    (es : List Effect) (pid : PeerID) (req : PushRecordRequest) (e : String) :
    (env.idFromBytes msg.From = .ok pid → pid = env.hostID →
      subscribeLoop env (msg :: rest) es = subscribeLoop env rest es) ∧
    (env.idFromBytes msg.From = .ok pid → pid ≠ env.hostID →
      env.unmarshalPushRecordRequest msg.Data = .error e →
      subscribeLoop env (msg :: rest) es =
        subscribeLoop env rest (es ++ [.logError e])) ∧
    (env.idFromBytes msg.From = .ok pid → pid ≠ env.hostID →
      env.unmarshalPushRecordRequest msg.Data = .ok req →
      subscribeLoop env (msg :: rest) es =
        (match PushRecord env req (es ++ [.dispatched req]) with
         | (.error e2, es1) => subscribeLoop env rest (es1 ++ [.logError e2])
         | (.ok _, es1) => subscribeLoop env rest es1)) ∧
    (env.idFromBytes msg.From = .error e →
      subscribeLoop env (msg :: rest) es = es ++ [.logError e]) := by
  refine ⟨?_, ?_, ?_, ?_⟩
  · intro hid hself
    simp only [subscribeLoop, hid, hself, if_pos]
  · intro hid hself hdec
    simp only [subscribeLoop, hid, hself, if_neg, hdec]
    simp
  · intro hid hself hdec
    simp only [subscribeLoop, hid, hself, if_neg, hdec]
    simp
  · intro hid
    simp only [subscribeLoop, hid]

/-- Witness for the amended claim C7: a well-formed remote message is
decoded and dispatched to PushRecord, and the loop then ends with the
delivered messages; here the dispatched request is accepted, so the
resulting trace is the dispatch marker followed by PushRecord's effects. -/
theorem subscribeLoop_dispatch_witness :
    subscribeLoop envSub [msgGood] [] =
      (match PushRecord envSub reqW ([] ++ [.dispatched reqW]) with
       | (.error e2, es1) => subscribeLoop envSub [] (es1 ++ [.logError e2])
       | (.ok _, es1) => subscribeLoop envSub [] es1) :=
  ((subscribeLoop_dispatch envSub msgGood [] [] 5 reqW "x").2.2.1) rfl (by decide) rfl

/-- Membership in the aggregator map coincides with membership among the
keys stored so far. -/
theorem records_hasKey_iff (r : records) (k : Cid) :
    r.hasKey k = true ↔ k ∈ r.m.map Prod.fst := by
  simp [records.hasKey]

/-- firstOccsAux only inspects the membership of its seen-set. -/
theorem firstOccsAux_congr (l : List (Cid × ThreadRecord)) :
    ∀ seen1 seen2 : List Cid, (∀ x, x ∈ seen1 ↔ x ∈ seen2) →
      firstOccsAux seen1 l = firstOccsAux seen2 l := by
  induction l with
  | nil => intro seen1 seen2 _; rfl
  | cons kv rest ih =>
    intro seen1 seen2 h
    obtain ⟨k, v⟩ := kv
    have hc : seen1.contains k = seen2.contains k := by
      by_cases hk : k ∈ seen1
      · have hk2 : k ∈ seen2 := (h k).mp hk
        simp [hk, hk2]
      · have hk2 : k ∉ seen2 := fun hx => hk ((h k).mpr hx)
        simp [hk, hk2]
    simp only [firstOccsAux, hc]
    split
    · exact ih seen1 seen2 h
    · rw [ih (k :: seen1) (k :: seen2) (by intro x; simp [h x])]

/-- Invariant of repeated Store calls: the slice extends by the records of
the not-yet-seen CIDs, in order of first insertion. -/
theorem applyStores_s (ops : List (Cid × ThreadRecord)) :
    ∀ r : records,
      (applyStores r ops).s =
        r.s ++ (firstOccsAux (r.m.map Prod.fst) ops).map Prod.snd := by
  induction ops with
  | nil => intro r; simp [applyStores, firstOccsAux]
  | cons kv rest ih =>
    intro r
    obtain ⟨k, v⟩ := kv
    simp only [applyStores, firstOccsAux]
    by_cases hk : r.hasKey k = true
    · have hcont : (r.m.map Prod.fst).contains k = true := by
        have hmem := (records_hasKey_iff r k).mp hk
        simpa using hmem
      rw [records.Store, if_pos hk, hcont, if_pos rfl]
      exact ih r
    · have hmem : k ∉ r.m.map Prod.fst := fun hx => hk ((records_hasKey_iff r k).mpr hx)
      have hcont : (r.m.map Prod.fst).contains k = false := by
        simp [hmem]
      rw [records.Store, if_neg hk, hcont]
      simp only [Bool.false_eq_true, if_false]
      have hstep := ih { m := r.m ++ [(k, v)], s := r.s ++ [v] }
      have hseen : ({ m := r.m ++ [(k, v)], s := r.s ++ [v] } : records).m.map Prod.fst =
          r.m.map Prod.fst ++ [k] := by simp
      rw [hseen, firstOccsAux_congr rest (r.m.map Prod.fst ++ [k]) (k :: r.m.map Prod.fst)
        (by intro x; simp [or_comm])] at hstep
      rw [hstep]
      simp

/-- Claim C10: Store is a no-op when the CID is already a key of the map
and otherwise appends the record to the slice and the CID to the map;
consequently, after any sequence of Store calls starting from newRecords,
List returns exactly one record per distinct stored CID, in order of first
insertion. -/
theorem records_store_dedup (ops : List (Cid × ThreadRecord)) (r : records) (k : Cid)
    (v : ThreadRecord) :
    (r.hasKey k = true → r.Store k v = r) ∧
    (r.hasKey k = false →
      r.Store k v = { m := r.m ++ [(k, v)], s := r.s ++ [v] }) ∧
    (applyStores newRecords ops).List = (firstOccsAux [] ops).map Prod.snd := by
  refine ⟨?_, ?_, ?_⟩
  · intro h; simp [records.Store, h]
  · intro h; simp [records.Store, h]
  · have h := applyStores_s ops newRecords
    simpa [records.List, newRecords] using h

/-- Aggregator already holding CID 1, for the witness of claim C10. -/
def recsOne : records := { m := [(1, recW)], s := [recW] }

/-- Witness for claim C10: storing an already-present CID is a no-op, and a
sequence with a duplicate CID lists one record per distinct CID in
first-insertion order. -/
theorem records_store_dedup_witness :
    recsOne.hasKey 1 = true ∧ recsOne.Store 1 { cid := 1, payload := 9 } = recsOne ∧
    (applyStores newRecords
        [(1, recW), (2, recW), (1, { cid := 1, payload := 9 })]).List =
      (firstOccsAux [] [(1, recW), (2, recW), (1, { cid := 1, payload := 9 })]).map
        Prod.snd :=
  ⟨by decide,
   (records_store_dedup [] recsOne 1 { cid := 1, payload := 9 }).1 (by decide),
   (records_store_dedup [(1, recW), (2, recW), (1, { cid := 1, payload := 9 })]
      recsOne 1 recW).2.2⟩

/-- Claim C8: in the PushRecordRequest built by pushRecord, the header's
ReadKeyLogID equals settings.KeyLog exactly when the directory holds a read
key for that log, and is unset otherwise. -/
theorem pushRecordBuild_readKeyLogID (env : Env) (rec : ThreadRecord) (id : ThreadID)
    (lid : PeerID) (settings : AddSettings) (info : ThreadInfo)
    (collected : List Multiaddr) (pbrec : PbRecord) (payload : Bytes) (sk : PrivKey)
    (sig : Bytes) (logKey followKey : Option DecKey)
    (hti : env.threadInfo settings.ThreadID = .ok info)
    (hca : collectAddrs env settings.ThreadID lid info.Logs = .ok collected)
    (hproto : env.recordToProto rec = .ok pbrec)
    (hmar : env.marshalRecord pbrec = .ok payload)
    (hsk : env.privKey = some sk)
    (hsig : env.sign sk payload = .ok sig)
    (hrk : env.readKey settings.ThreadID settings.KeyLog = .ok logKey)
    (hfk : env.followKey id lid = .ok followKey) :
    pushRecordBuild env rec id lid settings =
      .ok (collected ++ settings.Addrs,
        { Header := some
            { From := env.hostID
              Signature := sig
              Key := some (env.pubOfPriv sk)
              FollowKey := some (env.protoKeyOfOpt followKey)
              ReadKeyLogID := if logKey.isSome then some settings.KeyLog else none }
          ThreadID := id
          LogID := lid
          Record := pbrec }) ∧
    ((if logKey.isSome then some settings.KeyLog else none) = some settings.KeyLog ↔
      logKey.isSome = true) := by
  constructor
  · simp only [pushRecordBuild, hti, hca, hproto, hmar, hsk, hsig, hrk, hfk]
    cases logKey <;> simp
  · cases logKey <;> simp

/-- Witness for claim C8: with a read key present in the directory, the
built request carries ReadKeyLogID = settings.KeyLog. -/
theorem pushRecordBuild_readKeyLogID_witness :
    pushRecordBuild envW recW 1 5 { ThreadID := 1, KeyLog := 5, Addrs := [] } =
      .ok (([] : List Multiaddr) ++ [],
        { Header := some
            { From := envW.hostID
              Signature := [1]
              Key := some (envW.pubOfPriv 7)
              FollowKey := some (envW.protoKeyOfOpt (some 3))
              ReadKeyLogID :=
                if (some (4 : DecKey)).isSome then some 5 else none }
          ThreadID := 1
          LogID := 5
          Record := recW.payload }) :=
  (pushRecordBuild_readKeyLogID envW recW 1 5 { ThreadID := 1, KeyLog := 5, Addrs := [] }
    { Logs := [] } [] recW.payload [recW.payload] 7 [1] (some 4) (some 3)
    rfl rfl rfl rfl rfl rfl rfl rfl).1
